import Mathlib

/-
Verification of the RBS TaskHub application (src/app.py) against its
natural-language specification.

The Python program is a Streamlit dashboard over a Supabase table store.
We shallowly embed its persistence-facing functions:

  - the `tasks` table row         -> structure Task
  - the `activity_logs` table row -> structure LogEntry (declared by the
    specification's external-interface section; the application code never
    writes to it)
  - the `projects` table row      -> structure ProjRow
  - the persisted state           -> structure DB (tasks + activity_logs;
    the projects table is passed separately to the project functions)

A fallible persistence call is modelled by an explicit outcome parameter:
either an `Except String` result for reads, or a Boolean `fails` flag for
writes (true = the underlying call raises).  A Python function with no
try/except around a fallible call is `Except`-valued (the exception
propagates); one with try/except returns its fallback value.
-/

namespace RBS

/-- A row of the `tasks` table, as written by `add_task` in src/app.py.
`due_date` is the parsed calendar date as a day number; `none` models a
value that `pd.to_datetime(..., errors="coerce")` turns into NaT. -/
structure Task where
  id : Nat
  created_by : String
  assigned_to : String
  task_desc : String
  status : String
  priority : String
  due_date : Option Int
  project_ref : String
  staff_remarks : String
  manager_remarks : String
deriving DecidableEq, Repr

/-- A row of the `activity_logs` table named by the specification's
external-interface section.  No function in src/app.py ever inserts one. -/
structure LogEntry where
  actor : String
  action : String
  detail : String
  created_at : Nat
deriving DecidableEq, Repr

/-- The persisted state seen by the task functions: the `tasks` table with
its server-assigned auto-increment counter, and the `activity_logs` table. -/
structure DB where
  nextId : Nat
  tasks : List Task
  activity_logs : List LogEntry
deriving DecidableEq, Repr

/-- A row of the `projects` table, as written by `sync_projects`. -/
structure ProjRow where
  name : String
  status : String
  target_date : String
  description : String
  client : String
deriving DecidableEq, Repr

/-- Supabase upsert with `on_conflict="name"`: replace the row with the same
name if present, otherwise append. -/
def upsertProject (table : List ProjRow) (row : ProjRow) : List ProjRow :=
  if table.any (fun q => q.name == row.name) then
    table.map (fun q => if q.name == row.name then row else q)
  else
    table ++ [row]

/-- Embedding of `sync_projects` (src/app.py lines 57-76).  Each sheet row is
paired with the outcome of its upsert call (`true` = the call raises).  The
whole loop runs inside one try/except, so the first raising upsert aborts the
loop and the function returns `False`; upserts already executed stay
committed.  A failure of the initial sheet read is the degenerate case where
the first row's flag is `true`. -/
def sync_projects : List (ProjRow × Bool) → List ProjRow → Bool × List ProjRow
  | [], table => (true, table)
  | (row, fails) :: rest, table =>
    if fails then (false, table) else sync_projects rest (upsertProject table row)

/-- Embedding of `get_projects` (src/app.py lines 78-83): the select is
wrapped in try/except, so a raised error yields the empty list. -/
def get_projects (fetch : Except String (List ProjRow)) : List String :=
  match fetch with
  | Except.ok rows => rows.map (fun r => r.name)
  | Except.error _ => []

/-- The task record inserted by `add_task`: status "Open", empty remarks, and
`final_date = str(due_date) if due_date else str(date.today())`. -/
def mkTask (id : Nat) (created_by assigned_to task_desc priority : String)
    (due_date : Option Int) (project_ref : String) (today : Int) : Task :=
  { id := id
    created_by := created_by
    assigned_to := assigned_to
    task_desc := task_desc
    status := "Open"
    priority := priority
    due_date := some (due_date.getD today)
    project_ref := project_ref
    staff_remarks := ""
    manager_remarks := "" }

/-- Embedding of `add_task` (src/app.py lines 86-104): a single insert inside
try/except; on a raised error it returns `False` and the state is untouched. -/
def add_task (fails : Bool) (created_by assigned_to task_desc priority : String)
    (due_date : Option Int) (project_ref : String) (today : Int) (db : DB) : Bool × DB :=
  if fails then
    (false, db)
  else
    (true, { db with
              nextId := db.nextId + 1
              tasks := db.tasks ++
                [mkTask db.nextId created_by assigned_to task_desc priority
                  due_date project_ref today] })

/-- Embedding of the query built by `get_tasks` (src/app.py lines 106-111):
select all rows, and unless `is_admin`, keep only rows with
`assigned_to == user_email`. -/
def get_tasks (tasks : List Task) (user_email : String) (is_admin : Bool) : List Task :=
  if is_admin then tasks else tasks.filter (fun t => t.assigned_to == user_email)

/-- Embedding of `get_tasks` including the outcome of the persistence call.
The function body has no try/except, so a raised error propagates to the
caller instead of being turned into an empty result. -/
def get_tasksE (fetch : Except String (List Task)) (user_email : String)
    (is_admin : Bool) : Except String (List Task) :=
  match fetch with
  | Except.error e => Except.error e
  | Except.ok rows => Except.ok (get_tasks rows user_email is_admin)

/-- Python truthiness of the `remarks` argument: `if remarks:` is false for
both `None` and the empty string. -/
def pyTruthy : Option String → Bool
  | none => false
  | some s => !(s == "")

/-- The per-row effect of the update statement in `update_task_status`:
rows whose id matches get the new status, and the staff remark only when the
`remarks` argument is truthy. -/
def updateRow (task_id : Nat) (new_status : String) (remarks : Option String)
    (t : Task) : Task :=
  if t.id == task_id then
    { t with
        status := new_status
        staff_remarks := if pyTruthy remarks then remarks.getD t.staff_remarks
                         else t.staff_remarks }
  else t

/-- Embedding of `update_task_status` (src/app.py lines 113-120): the update
is wrapped in try/except returning `False` on a raised error; on success it
returns `True`.  It writes only the `tasks` table. -/
def update_task_status (fails : Bool) (db : DB) (task_id : Nat) (new_status : String)
    (remarks : Option String) : Bool × DB :=
  if fails then
    (false, db)
  else
    (true, { db with tasks := db.tasks.map (updateRow task_id new_status remarks) })

/-- The diary's pre-filter (src/app.py line 229):
`active_df = df[df["status"] != "Completed"]`. -/
def activeTasks (df : List Task) : List Task :=
  df.filter (fun t => !(t.status == "Completed"))

/-- The four filter buttons of the diary view (src/app.py lines 223-242). -/
inductive DiaryView
  | all
  | today
  | tomorrow
  | overdue
deriving DecidableEq, Repr

/-- The filtered frame shown by the diary (src/app.py lines 228-242): every
variant starts from `activeTasks`; the date comparisons are false for a NaT
due date, so rows without a parseable date appear only in the All view. -/
def filteredView (view : DiaryView) (todayTs : Int) (df : List Task) : List Task :=
  let active := activeTasks df
  match view with
  | DiaryView.today =>
    active.filter (fun t => match t.due_date with
      | some d => d == todayTs
      | none => false)
  | DiaryView.tomorrow =>
    active.filter (fun t => match t.due_date with
      | some d => d == todayTs + 1
      | none => false)
  | DiaryView.overdue =>
    active.filter (fun t => match t.due_date with
      | some d => decide (d < todayTs)
      | none => false)
  | DiaryView.all => active

/-- Lexicographic order on character lists by Unicode code point: how Python
(and hence pandas on an object column) compares strings. -/
def charsLe : List Char → List Char → Bool
  | [], _ => true
  | _ :: _, [] => false
  | a :: as, b :: bs =>
    if a.toNat < b.toNat then true
    else if b.toNat < a.toNat then false
    else charsLe as bs

/-- The sort key of `filtered_df.sort_values(by=["due_date", "priority"],
ascending=[True, True])` (src/app.py line 248): due date ascending with NaT
last, ties broken by the priority label string ascending. -/
def taskLe (a b : Task) : Bool :=
  match a.due_date, b.due_date with
  | some x, some y =>
    if x = y then charsLe a.priority.data b.priority.data else decide (x < y)
  | some _, none => true
  | none, some _ => false
  | none, none => charsLe a.priority.data b.priority.data

/-- `taskLe` as a relation, for the sorting library. -/
def taskRel (a b : Task) : Prop := taskLe a b = true

instance : DecidableRel taskRel := fun a b => by
  unfold taskRel
  infer_instance

/-- The diary's sort of the filtered frame, modelled as a comparison sort by
the `taskLe` key. -/
def diarySort (l : List Task) : List Task := List.insertionSort taskRel l

/-- What the diary presents for a given filter button: the filtered frame
sorted by due date then priority string (src/app.py lines 228-248). -/
def diaryPresent (view : DiaryView) (todayTs : Int) (df : List Task) : List Task :=
  diarySort (filteredView view todayTs df)

/-- Lowercase a character list, as Python `str.lower()` on the characters the
parser deals with. -/
def lowerStr (s : List Char) : List Char := s.map Char.toLower

/-- Boolean list-prefix test used by the substring scan. -/
def isPrefixL : List Char → List Char → Bool
  | [], _ => true
  | _ :: _, [] => false
  | a :: as, b :: bs => a == b && isPrefixL as bs

/-- Boolean substring test: does `tok` occur contiguously in `text`? -/
def containsTok (tok : List Char) : List Char → Bool
  | [] => tok.isEmpty
  | c :: rest => isPrefixL tok (c :: rest) || containsTok tok rest

/-- Case-insensitive substring test, as Python
`tok.lower() in text.lower()`. -/
def containsCI (tok text : List Char) : Bool :=
  containsTok (lowerStr tok) (lowerStr text)

/-- Remove the first case-insensitive occurrence of `tok` from `text`, as a
count-1 case-insensitive regex substitution would. -/
def removeFirstCI (tok : List Char) : List Char → List Char
  | [] => []
  | c :: rest =>
    if isPrefixL (lowerStr tok) (lowerStr (c :: rest)) then (c :: rest).drop tok.length
    else c :: removeFirstCI tok rest

/-- Drop leading whitespace. -/
def dropSpaces : List Char → List Char
  | [] => []
  | c :: rest => if c.isWhitespace then dropSpaces rest else c :: rest

/-- Split off the first maximal whitespace-free word. -/
def takeWord : List Char → List Char × List Char
  | [] => ([], [])
  | c :: rest =>
    if c.isWhitespace then ([], c :: rest)
    else (c :: (takeWord rest).1, (takeWord rest).2)

/-- Modelled from the spec: the verb vocabulary of the command parser
(spec section 4.1, step 3). -/
def VERBS : List (List Char) :=
  ["ask".data, "tell".data, "assign".data, "to".data, "request".data]

/-- Modelled from the spec: strip a leading run of verbs, case-insensitive and
whitespace-separated, from the start of the text (spec section 4.1, step 3).
Written with a fuel argument so the recursion is structural; the fuel is the
text length, which bounds the number of words that can be stripped. -/
def stripVerbsFuel : Nat → List Char → List Char
  | 0, text => dropSpaces text
  | fuel + 1, text =>
    let t := dropSpaces text
    if (takeWord t).1 ≠ [] ∧ lowerStr (takeWord t).1 ∈ VERBS then
      stripVerbsFuel fuel (takeWord t).2
    else t

/-- Modelled from the spec: strip the leading run of verbs from a text. -/
def stripVerbs (text : List Char) : List Char :=
  stripVerbsFuel text.length text

/-- Modelled from the spec: the fixed mapping from a short team-member token
(case-insensitive first name) to that member's full identity string
(spec section 4.1, step 2), in the defined iteration order of the team list
of src/app.py lines 39-40. -/
def TEAM_TOKENS : List (List Char × String) :=
  [("msk".data, "msk@rbsgo.com"),
   ("praveen".data, "praveen@rbsgo.com"),
   ("arjun".data, "arjun@rbsgo.com"),
   ("prasanna".data, "prasanna@rbsgo.com"),
   ("chris".data, "chris@rbsgo.com"),
   ("sarah".data, "sarah@rbsgo.com")]

/-- Scan the token mapping in its defined iteration order and return the
first entry whose token occurs case-insensitively in the text. -/
def scanTokens : List (List Char × String) → List Char → Option (List Char × String)
  | [], _ => none
  | p :: rest, text => if containsCI p.1 text then some p else scanTokens rest text

/-- Modelled from the spec: the command parser of spec section 4.1, which is
described by the specification but has no implementation in src/app.py (the
create-task view at src/app.py lines 184-192 selects the assignee with a
radio control instead).  Default assignee is the issuing user and the text is
returned unchanged; the first mapping entry whose token occurs
case-insensitively in the text sets the assignee, has its first
case-insensitive occurrence removed from the text, and the leading run of
verbs is then stripped. -/
def parse_command (command_text : List Char) (current_user : String) :
    String × List Char :=
  match scanTokens TEAM_TOKENS command_text with
  | some p => (p.2, stripVerbs (removeFirstCI p.1 command_text))
  | none => (current_user, command_text)

/-- The cleaning step as claim C1 words it: strip at most ONE leading verb
(instead of the spec algorithm's leading run of verbs). -/
def stripOneVerb (text : List Char) : List Char :=
  let t := dropSpaces text
  if (takeWord t).1 ≠ [] ∧ lowerStr (takeWord t).1 ∈ VERBS then dropSpaces (takeWord t).2
  else t

/-- The ordering claim C8 asserts for priorities: High before Medium before
Low. -/
def priorityRank (p : String) : Nat :=
  if p == "🔥 High" then 0
  else if p == "⚡ Medium" then 1
  else if p == "🧊 Low" then 2
  else 3

/-- The presentation order claim C8 asserts: due date ascending, ties broken
by `priorityRank` ascending. -/
def claimLe (a b : Task) : Bool :=
  match a.due_date, b.due_date with
  | some x, some y =>
    if x = y then decide (priorityRank a.priority ≤ priorityRank b.priority)
    else decide (x < y)
  | some _, none => true
  | none, some _ => false
  | none, none => decide (priorityRank a.priority ≤ priorityRank b.priority)

/-- The task fields other than `status`, for frame (nothing-else-changed)
statements. -/
def taskFrame (t : Task) :
    Nat × String × String × String × String × Option Int × String × String × String :=
  (t.id, t.created_by, t.assigned_to, t.task_desc, t.priority, t.due_date,
    t.project_ref, t.staff_remarks, t.manager_remarks)

/-- A concrete task used by the concrete-input theorems. -/
def baseTask : Task :=
  { id := 1
    created_by := "msk@rbsgo.com"
    assigned_to := "msk@rbsgo.com"
    task_desc := "Prepare the EOD report"
    status := "Open"
    priority := "🔥 High"
    due_date := some 5
    project_ref := "General"
    staff_remarks := ""
    manager_remarks := "" }

/-- A concrete one-task state with an empty activity log. -/
def exDB2 : DB :=
  { nextId := 2
    tasks := [baseTask]
    activity_logs := [] }

/-- A concrete empty state. -/
def exDB3 : DB :=
  { nextId := 1
    tasks := []
    activity_logs := [] }

/-- A concrete sheet row. -/
def exRow1 : ProjRow :=
  { name := "Billing API"
    status := "Build"
    target_date := "2026-01-01"
    description := "Billing interface build"
    client := "Acme" }

/-- A second concrete sheet row with a distinct name. -/
def exRow2 : ProjRow :=
  { exRow1 with name := "Reporting API" }

/-- A concrete one-task state whose task has a non-empty staff remark. -/
def exDB6 : DB :=
  { nextId := 2
    tasks := [{ baseTask with staff_remarks := "old" }]
    activity_logs := [] }

/-- A concrete high-priority task due on day 5. -/
def exTaskH : Task := baseTask

/-- A concrete medium-priority task due on day 5. -/
def exTaskM : Task :=
  { baseTask with id := 2, priority := "⚡ Medium" }

theorem charsLe_cons_iff (a b : Char) (as bs : List Char) :
    charsLe (a :: as) (b :: bs) = true ↔
      (a.toNat < b.toNat ∨ (a.toNat = b.toNat ∧ charsLe as bs = true)) := by
  simp only [charsLe]
  by_cases h1 : a.toNat < b.toNat
  · simp [h1]
  · by_cases h2 : b.toNat < a.toNat
    · simp only [if_neg h1, if_pos h2]
      constructor
      · intro h
        exact absurd h (by simp)
      · intro h
        rcases h with h | ⟨h, _⟩ <;> omega
    · have heq : a.toNat = b.toNat := by omega
      simp [h1, h2, heq]

theorem charsLe_total : ∀ x y : List Char, (charsLe x y || charsLe y x) = true
  | [], y => by simp [charsLe]
  | a :: as, [] => by simp [charsLe]
  | a :: as, b :: bs => by
    rcases Nat.lt_trichotomy a.toNat b.toNat with h | h | h
    · simp [charsLe, h]
    · have hba : ¬ b.toNat < a.toNat := by omega
      have hab : ¬ a.toNat < b.toNat := by omega
      simp only [charsLe, if_neg hab, if_neg hba]
      exact charsLe_total as bs
    · have hab : ¬ a.toNat < b.toNat := by omega
      simp [charsLe, h, hab]

theorem charsLe_trans : ∀ x y z : List Char,
    charsLe x y = true → charsLe y z = true → charsLe x z = true
  | [], _, _ => by simp [charsLe]
  | a :: as, [], _ => by simp [charsLe]
  | a :: as, b :: bs, [] => by simp [charsLe]
  | a :: as, b :: bs, c :: cs => by
    intro hxy hyz
    rw [charsLe_cons_iff] at hxy hyz ⊢
    rcases hxy with h1 | ⟨h1, hxy'⟩ <;> rcases hyz with h2 | ⟨h2, hyz'⟩
    · exact Or.inl (by omega)
    · exact Or.inl (by omega)
    · exact Or.inl (by omega)
    · exact Or.inr ⟨by omega, charsLe_trans as bs cs hxy' hyz'⟩

theorem taskLe_none_none (a b : Task) (ha : a.due_date = none) (hb : b.due_date = none) :
    taskLe a b = charsLe a.priority.data b.priority.data := by
  unfold taskLe
  rw [ha, hb]

theorem taskLe_some_none (a b : Task) (x : Int) (ha : a.due_date = some x)
    (hb : b.due_date = none) : taskLe a b = true := by
  unfold taskLe
  rw [ha, hb]

theorem taskLe_none_some (a b : Task) (y : Int) (ha : a.due_date = none)
    (hb : b.due_date = some y) : taskLe a b = false := by
  unfold taskLe
  rw [ha, hb]

theorem taskLe_some_some (a b : Task) (x y : Int) (ha : a.due_date = some x)
    (hb : b.due_date = some y) :
    taskLe a b = if x = y then charsLe a.priority.data b.priority.data
                 else decide (x < y) := by
  unfold taskLe
  rw [ha, hb]

theorem taskLe_total (a b : Task) : (taskLe a b || taskLe b a) = true := by
  rcases hda : a.due_date with _ | x <;> rcases hdb : b.due_date with _ | y
  · rw [taskLe_none_none a b hda hdb, taskLe_none_none b a hdb hda]
    exact charsLe_total _ _
  · rw [taskLe_some_none b a y hdb hda]
    simp
  · rw [taskLe_some_none a b x hda hdb]
    simp
  · rw [taskLe_some_some a b x y hda hdb, taskLe_some_some b a y x hdb hda]
    by_cases hxy : x = y
    · subst hxy
      simp only [if_pos rfl]
      exact charsLe_total _ _
    · rw [if_neg hxy, if_neg (Ne.symm hxy)]
      have h : x < y ∨ y < x := by omega
      rcases h with h | h <;> simp [h]

theorem taskLe_trans (a b c : Task) (hab : taskLe a b = true) (hbc : taskLe b c = true) :
    taskLe a c = true := by
  rcases hda : a.due_date with _ | x <;> rcases hdb : b.due_date with _ | y <;>
    rcases hdc : c.due_date with _ | z
  · rw [taskLe_none_none a b hda hdb] at hab
    rw [taskLe_none_none b c hdb hdc] at hbc
    rw [taskLe_none_none a c hda hdc]
    exact charsLe_trans _ _ _ hab hbc
  · rw [taskLe_none_some b c z hdb hdc] at hbc
    exact absurd hbc (by simp)
  · rw [taskLe_none_some a b y hda hdb] at hab
    exact absurd hab (by simp)
  · rw [taskLe_none_some a b y hda hdb] at hab
    exact absurd hab (by simp)
  · exact taskLe_some_none a c x hda hdc
  · rw [taskLe_none_some b c z hdb hdc] at hbc
    exact absurd hbc (by simp)
  · exact taskLe_some_none a c x hda hdc
  · rw [taskLe_some_some a b x y hda hdb] at hab
    rw [taskLe_some_some b c y z hdb hdc] at hbc
    rw [taskLe_some_some a c x z hda hdc]
    by_cases hxy : x = y <;> by_cases hyz : y = z
    · subst hxy
      subst hyz
      rw [if_pos rfl] at hab hbc ⊢
      exact charsLe_trans _ _ _ hab hbc
    · subst hxy
      rw [if_neg hyz] at hbc
      rw [if_neg hyz]
      exact hbc
    · subst hyz
      rw [if_neg hxy] at hab
      rw [if_neg hxy]
      exact hab
    · rw [if_neg hxy] at hab
      rw [if_neg hyz] at hbc
      have h1 : x < y := of_decide_eq_true hab
      have h2 : y < z := of_decide_eq_true hbc
      rw [if_neg (by omega : ¬ x = z)]
      exact decide_eq_true (by omega)

theorem scanTokens_eq_of_unique (L : List (List Char × String)) (tok : List Char)
    (ident : String) (text : List Char)
    (hmem : (tok, ident) ∈ L) (hc : containsCI tok text = true)
    (huniq : ∀ p ∈ L, containsCI p.1 text = true → p = (tok, ident)) :
    scanTokens L text = some (tok, ident) := by
  induction L with
  | nil => cases hmem
  | cons q rest ih =>
    by_cases hq : containsCI q.1 text = true
    · have hq2 : q = (tok, ident) := huniq q (List.mem_cons_self q rest) hq
      subst hq2
      simp [scanTokens, hq]
    · have hne : q ≠ (tok, ident) := by
        intro h
        subst h
        exact hq hc
      have hmem2 : (tok, ident) ∈ rest := by
        rcases List.mem_cons.mp hmem with h | h
        · exact absurd h.symm hne
        · exact h
      simp only [scanTokens]
      rw [if_neg hq]
      exact ih hmem2 (fun r hr hcr => huniq r (List.mem_cons_of_mem q hr) hcr)

/-- C1 (amended): for every command text in which exactly one team-member
token occurs case-insensitively and every issuing user, `parse_command`
returns that member's full identity as the assignee, and a cleaned
description equal to the input with the first case-insensitive occurrence of
the token removed and the leading RUN of verbs (possibly more than one, per
spec section 4.1 step 3) stripped. -/
theorem C1_parse_command_unique_token (text : List Char) (user : String)
    (tok : List Char) (ident : String)
    (hmem : (tok, ident) ∈ TEAM_TOKENS)
    (hc : containsCI tok text = true)
    (huniq : ∀ p ∈ TEAM_TOKENS, containsCI p.1 text = true → p = (tok, ident)) :
    parse_command text user = (ident, stripVerbs (removeFirstCI tok text)) := by
  unfold parse_command
  rw [scanTokens_eq_of_unique TEAM_TOKENS tok ident text hmem hc huniq]

/-- C1 counterexample: on the specification's own worked example, the cleaned
description has TWO leading verbs removed ("Ask" and then "to"), not one as
the claim states: stripping only one leading verb after removing the token
would yield "to prepare the EOD report", but the parser yields
"prepare the EOD report". -/
theorem C1_counterexample :
    parse_command "Ask Praveen to prepare the EOD report".data "msk@rbsgo.com"
      = ("praveen@rbsgo.com", "prepare the EOD report".data) ∧
    stripOneVerb (removeFirstCI "praveen".data
        "Ask Praveen to prepare the EOD report".data)
      = "to prepare the EOD report".data ∧
    ("prepare the EOD report".data : List Char) ≠ "to prepare the EOD report".data :=
  ⟨by decide, by decide, by decide⟩

/-- C1 witness: the amended theorem applied to the specification's worked
example. -/
theorem C1_witness :
    (("praveen".data, "praveen@rbsgo.com") ∈ TEAM_TOKENS) ∧
    containsCI "praveen".data "Ask Praveen to prepare the EOD report".data = true ∧
    (∀ p ∈ TEAM_TOKENS,
      containsCI p.1 "Ask Praveen to prepare the EOD report".data = true →
        p = ("praveen".data, "praveen@rbsgo.com")) ∧
    parse_command "Ask Praveen to prepare the EOD report".data "msk@rbsgo.com"
      = ("praveen@rbsgo.com",
          stripVerbs (removeFirstCI "praveen".data
            "Ask Praveen to prepare the EOD report".data)) :=
  ⟨by decide, by decide, by decide,
    C1_parse_command_unique_token "Ask Praveen to prepare the EOD report".data
      "msk@rbsgo.com" "praveen".data "praveen@rbsgo.com"
      (by decide) (by decide) (by decide)⟩

/-- C2 (amended): a call to the update operation never appends an
ActivityLogEntry, whether it succeeds or fails: src/app.py maintains no
activity log at all, so two successive successful updates leave the log with
zero new entries, not two. -/
theorem C2_update_appends_no_log (fails : Bool) (db : DB) (task_id : Nat)
    (new_status : String) (remarks : Option String) :
    ((update_task_status fails db task_id new_status remarks).2).activity_logs
      = db.activity_logs := by
  unfold update_task_status
  cases fails <;> simp

/-- C2 counterexample: two successive successful updates to the same task id
append zero activity log entries in total, not two. -/
theorem C2_counterexample :
    (update_task_status false exDB2 1 "In Progress" none).1 = true ∧
    (update_task_status false (update_task_status false exDB2 1 "In Progress" none).2
        1 "Completed" none).1 = true ∧
    ((update_task_status false (update_task_status false exDB2 1 "In Progress" none).2
        1 "Completed" none).2).activity_logs.length = 0 ∧
    ((update_task_status false (update_task_status false exDB2 1 "In Progress" none).2
        1 "Completed" none).2).activity_logs.length ≠ 2 :=
  ⟨by decide, by decide, by decide, by decide⟩

/-- C3: when `is_admin` is false the list operation returns exactly the tasks
whose assignee equals the viewer identity; when `is_admin` is true it returns
all tasks; and a freshly created task appears exactly once in its creator's
non-admin view when creator equals assignee and zero times otherwise. -/
theorem C3_list_assignee_scoped (db : DB)
    (created_by assigned_to task_desc priority : String) (due : Option Int)
    (project_ref : String) (today : Int) (viewer : String)
    (hfresh : ∀ t ∈ db.tasks, t.id ≠ db.nextId) :
    get_tasks ((add_task false created_by assigned_to task_desc priority due
        project_ref today db).2).tasks viewer false
      = ((add_task false created_by assigned_to task_desc priority due
          project_ref today db).2).tasks.filter (fun t => t.assigned_to == viewer) ∧
    get_tasks ((add_task false created_by assigned_to task_desc priority due
        project_ref today db).2).tasks viewer true
      = ((add_task false created_by assigned_to task_desc priority due
          project_ref today db).2).tasks ∧
    (get_tasks ((add_task false created_by assigned_to task_desc priority due
        project_ref today db).2).tasks created_by false).countP
          (fun t => t.id == db.nextId)
      = (if assigned_to == created_by then 1 else 0) := by
  refine ⟨rfl, rfl, ?_⟩
  show ((db.tasks ++ [mkTask db.nextId created_by assigned_to task_desc priority
      due project_ref today]).filter (fun t => t.assigned_to == created_by)).countP
        (fun t => t.id == db.nextId)
    = (if assigned_to == created_by then 1 else 0)
  rw [List.filter_append, List.countP_append]
  have hold : (db.tasks.filter (fun t => t.assigned_to == created_by)).countP
      (fun t => t.id == db.nextId) = 0 := by
    rw [List.countP_eq_zero]
    intro t ht
    have hmem : t ∈ db.tasks := (List.mem_filter.mp ht).1
    simpa using hfresh t hmem
  rw [hold]
  by_cases h : assigned_to = created_by
  · simp [mkTask, h]
  · simp [mkTask, h]

/-- C3 witness: the theorem applied to the empty state with creator equal to
assignee. -/
theorem C3_witness :
    (∀ t ∈ exDB3.tasks, t.id ≠ exDB3.nextId) ∧
    (get_tasks ((add_task false "msk@rbsgo.com" "msk@rbsgo.com"
        "Prepare the EOD report" "🔥 High" none "General" 5 exDB3).2).tasks
        "msk@rbsgo.com" false).countP (fun t => t.id == exDB3.nextId)
      = (if ("msk@rbsgo.com" : String) == "msk@rbsgo.com" then 1 else 0) :=
  ⟨by decide,
    (C3_list_assignee_scoped exDB3 "msk@rbsgo.com" "msk@rbsgo.com"
      "Prepare the EOD report" "🔥 High" none "General" 5 "msk@rbsgo.com"
      (by decide)).2.2⟩

/-- C4 (amended): a persistence error on the project-list read yields the
empty result set, but a persistence error on the task-list read is propagated
to the caller unchanged: `get_tasks` in src/app.py has no try/except. -/
theorem C4_read_error_handling (e : String) (u : String) (a : Bool) :
    get_projects (Except.error e) = [] ∧
    get_tasksE (Except.error e) u a = Except.error e :=
  ⟨rfl, rfl⟩

/-- C4 counterexample: a failing task-list read reaches the caller as the
propagated error, not as an empty result set. -/
theorem C4_counterexample :
    get_tasksE (Except.error "db down") "praveen@rbsgo.com" false
      = Except.error "db down" ∧
    (Except.error "db down" : Except String (List Task)) ≠ Except.ok [] :=
  ⟨rfl, fun h => Except.noConfusion h⟩

/-- C5 (amended): a failing task create and a failing task update each
return a failure indicator and leave the persisted state exactly as it was
(no partial commit); a project sync returns a failure indicator exactly when
some upsert fails, but the rows upserted before the first failing row stay
committed (a partial commit). -/
theorem C5_write_error_handling :
    (∀ (created_by assigned_to task_desc priority : String) (due : Option Int)
      (project_ref : String) (today : Int) (db : DB),
      add_task true created_by assigned_to task_desc priority due project_ref
        today db = (false, db)) ∧
    (∀ (db : DB) (task_id : Nat) (new_status : String) (remarks : Option String),
      update_task_status true db task_id new_status remarks = (false, db)) ∧
    (∀ (rows : List (ProjRow × Bool)) (table : List ProjRow),
      (sync_projects rows table).1 = rows.all (fun p => !p.2)) ∧
    (∀ (rows : List (ProjRow × Bool)) (table : List ProjRow),
      (sync_projects rows table).2
        = List.foldl (fun tb p => upsertProject tb p.1) table
            (rows.takeWhile (fun p => !p.2))) := by
  refine ⟨fun _ _ _ _ _ _ _ _ => rfl, fun _ _ _ _ => rfl, ?_, ?_⟩
  · intro rows
    induction rows with
    | nil => intro table; rfl
    | cons p rest ih =>
      intro table
      rcases p with ⟨row, fl⟩
      cases fl
      · simpa [sync_projects] using ih (upsertProject table row)
      · simp [sync_projects]
  · intro rows
    induction rows with
    | nil => intro table; rfl
    | cons p rest ih =>
      intro table
      rcases p with ⟨row, fl⟩
      cases fl
      · simpa [sync_projects, List.takeWhile_cons] using ih (upsertProject table row)
      · simp [sync_projects, List.takeWhile_cons]

/-- C5 counterexample: when the second of two upserts fails, the sync returns
a failure indicator but the first row is already committed, so the persisted
state is not as it was before the operation began. -/
theorem C5_counterexample :
    sync_projects [(exRow1, false), (exRow2, true)] [] = (false, [exRow1]) ∧
    ([exRow1] : List ProjRow) ≠ ([] : List ProjRow) :=
  ⟨by decide, by decide⟩

theorem updateRow_id (k : Nat) (s : String) (r : Option String) (t : Task) :
    (updateRow k s r t).id = t.id := by
  unfold updateRow
  split <;> rfl

theorem updateRow_frame (k : Nat) (t : Task) :
    taskFrame (updateRow k "Completed" none t) = taskFrame t := by
  unfold updateRow
  split <;> rfl

theorem all_status_map_updateRow (l : List Task) (k : Nat) (s : String)
    (r : Option String) :
    (l.map (updateRow k s r)).all (fun t => !(t.id == k) || (t.status == s)) = true := by
  rw [List.all_eq_true]
  intro t ht
  rw [List.mem_map] at ht
  obtain ⟨t0, _, rfl⟩ := ht
  by_cases h : (t0.id == k) = true
  · unfold updateRow
    rw [if_pos h]
    simp
  · unfold updateRow
    rw [if_neg h]
    simp only [Bool.not_eq_true] at h
    simp [h]

theorem all_staff_map_updateRow (l : List Task) (k : Nat) (s : String) (r : String)
    (hr : r ≠ "") :
    (l.map (updateRow k s (some r))).all
      (fun t => !(t.id == k) || (t.staff_remarks == r)) = true := by
  rw [List.all_eq_true]
  intro t ht
  rw [List.mem_map] at ht
  obtain ⟨t0, _, rfl⟩ := ht
  by_cases h : (t0.id == k) = true
  · unfold updateRow
    rw [if_pos h]
    have htr : pyTruthy (some r) = true := by
      unfold pyTruthy
      simp [hr]
    simp [htr]
  · unfold updateRow
    rw [if_neg h]
    simp only [Bool.not_eq_true] at h
    simp [h]

theorem mem_filteredView_sub (view : DiaryView) (todayTs : Int) (l : List Task)
    (t : Task) (h : t ∈ filteredView view todayTs l) : t ∈ activeTasks l := by
  cases view <;> simp only [filteredView] at h
  · exact h
  · exact (List.mem_filter.mp h).1
  · exact (List.mem_filter.mp h).1
  · exact (List.mem_filter.mp h).1

theorem not_id_of_mem_active_update (l : List Task) (k : Nat) (r : Option String)
    (t : Task) (ht : t ∈ activeTasks (l.map (updateRow k "Completed" r))) :
    (!(t.id == k)) = true := by
  unfold activeTasks at ht
  rw [List.mem_filter] at ht
  obtain ⟨hmem, hstat⟩ := ht
  rw [List.mem_map] at hmem
  obtain ⟨t0, _, rfl⟩ := hmem
  by_cases h : (t0.id == k) = true
  · exfalso
    unfold updateRow at hstat
    rw [if_pos h] at hstat
    simp at hstat
  · unfold updateRow
    rw [if_neg h]
    simp only [Bool.not_eq_true] at h
    simp [h]

/-- C6 (amended): for every task id and new status, the update with the
`fails` outcome false succeeds regardless of the (old status, new status)
pair -- no state-machine transition guard is enforced -- and overwrites the
matching task's status; the staff remark field is overwritten only when the
supplied remark is a non-empty string (the code's Python truthiness test
treats an empty-string remark as absent, and no manager remark can be
supplied through this operation at all). -/
theorem C6_update_no_transition_guard (db : DB) (task_id : Nat) (new_status : String)
    (remarks : Option String) :
    (update_task_status false db task_id new_status remarks).1 = true ∧
    ((update_task_status false db task_id new_status remarks).2).tasks.all
      (fun t => !(t.id == task_id) || (t.status == new_status)) = true ∧
    (∀ r : String, remarks = some r → r ≠ "" →
      ((update_task_status false db task_id new_status remarks).2).tasks.all
        (fun t => !(t.id == task_id) || (t.staff_remarks == r)) = true) := by
  refine ⟨rfl, ?_, ?_⟩
  · exact all_status_map_updateRow db.tasks task_id new_status remarks
  · intro r hrem hr
    subst hrem
    exact all_staff_map_updateRow db.tasks task_id new_status r hr

/-- C6 counterexample: an update that supplies the empty string as the remark
succeeds but does not overwrite the staff remark field, which keeps its old
value. -/
theorem C6_counterexample :
    (update_task_status false exDB6 1 "Open" (some "")).1 = true ∧
    ((update_task_status false exDB6 1 "Open" (some "")).2).tasks.map
      Task.staff_remarks = ["old"] ∧
    ("old" : String) ≠ "" :=
  ⟨by decide, by decide, by decide⟩

/-- C6 witness: the amended theorem applied to a concrete state with a
non-empty remark. -/
theorem C6_witness :
    (update_task_status false exDB6 1 "Completed" (some "done")).1 = true ∧
    ((update_task_status false exDB6 1 "Completed" (some "done")).2).tasks.all
      (fun t => !(t.id == 1) || (t.status == "Completed")) = true ∧
    ((update_task_status false exDB6 1 "Completed" (some "done")).2).tasks.all
      (fun t => !(t.id == 1) || (t.staff_remarks == "done")) = true :=
  have h := C6_update_no_transition_guard exDB6 1 "Completed" (some "done")
  ⟨h.1, h.2.1, h.2.2 "done" rfl (by decide)⟩

/-- C7: after a task's status is set to "Completed", the task is excluded
from every diary filter (All/Today/Tomorrow/Overdue all start from the
active-only frame), but the record is not deleted (the stored ids are
unchanged) and remains present in the admin all-tasks read. -/
theorem C7_completed_excluded_not_deleted (db : DB) (task_id : Nat)
    (view : DiaryView) (todayTs : Int) (viewer : String) :
    ((update_task_status false db task_id "Completed" none).2).tasks.map Task.id
      = db.tasks.map Task.id ∧
    get_tasks ((update_task_status false db task_id "Completed" none).2).tasks
        viewer true
      = ((update_task_status false db task_id "Completed" none).2).tasks ∧
    (filteredView view todayTs
        ((update_task_status false db task_id "Completed" none).2).tasks).all
      (fun t => !(t.id == task_id)) = true := by
  refine ⟨?_, rfl, ?_⟩
  · show (db.tasks.map (updateRow task_id "Completed" none)).map Task.id
      = db.tasks.map Task.id
    induction db.tasks with
    | nil => rfl
    | cons t rest ih => simp [updateRow_id, ih]
  · rw [List.all_eq_true]
    intro t ht
    exact not_id_of_mem_active_update db.tasks task_id none t
      (mem_filteredView_sub view todayTs _ t ht)

/-- C8 (amended): for every non-empty filtered task set, the diary presents a
permutation of it sorted by due date ascending (missing dates last) and,
among equal due dates, by the priority LABEL STRING ascending by code point,
which orders "⚡ Medium" before "🔥 High" before "🧊 Low" -- not High before
Medium before Low as the claim states. -/
theorem C8_diary_sort_order (view : DiaryView) (todayTs : Int) (df : List Task)
    (_hne : filteredView view todayTs df ≠ []) :
    (diaryPresent view todayTs df).Perm (filteredView view todayTs df) ∧
    List.Pairwise taskRel (diaryPresent view todayTs df) := by
  have htot : IsTotal Task taskRel := ⟨fun a b => by
    unfold taskRel
    rcases Bool.or_eq_true_iff.mp (taskLe_total a b) with h | h
    · exact Or.inl h
    · exact Or.inr h⟩
  have htrans : IsTrans Task taskRel :=
    ⟨fun a b c hab hbc => taskLe_trans a b c hab hbc⟩
  exact ⟨List.perm_insertionSort taskRel _, List.sorted_insertionSort taskRel _⟩

/-- C8 counterexample: two active tasks with the same due date, one High and
one Medium, are presented with "⚡ Medium" first, violating the claimed
High-before-Medium order. -/
theorem C8_counterexample :
    diaryPresent DiaryView.all 5 [exTaskH, exTaskM] = [exTaskM, exTaskH] ∧
    exTaskM.due_date = exTaskH.due_date ∧
    priorityRank exTaskH.priority = 0 ∧
    priorityRank exTaskM.priority = 1 ∧
    ¬ List.Pairwise (fun a b => claimLe a b = true) [exTaskM, exTaskH] :=
  ⟨by decide, by decide, by decide, by decide, by decide⟩

/-- C8 witness: the amended theorem applied to a concrete non-empty filtered
set. -/
theorem C8_witness :
    filteredView DiaryView.all 5 [exTaskH] ≠ [] ∧
    ((diaryPresent DiaryView.all 5 [exTaskH]).Perm
        (filteredView DiaryView.all 5 [exTaskH]) ∧
      List.Pairwise taskRel (diaryPresent DiaryView.all 5 [exTaskH])) :=
  ⟨by decide, C8_diary_sort_order DiaryView.all 5 [exTaskH] (by decide)⟩

/-- C9: the quick-action Done path calls the update with status "Completed"
and no remark; it succeeds, sets the matching task's status to "Completed",
and changes no other field (id, creator, assignee, description, priority, due
date, project, staff remark and manager remark are all unchanged). -/
theorem C9_done_sets_status_only (db : DB) (task_id : Nat) :
    (update_task_status false db task_id "Completed" none).1 = true ∧
    ((update_task_status false db task_id "Completed" none).2).tasks.map taskFrame
      = db.tasks.map taskFrame ∧
    ((update_task_status false db task_id "Completed" none).2).tasks.all
      (fun t => !(t.id == task_id) || (t.status == "Completed")) = true := by
  refine ⟨rfl, ?_, ?_⟩
  · show (db.tasks.map (updateRow task_id "Completed" none)).map taskFrame
      = db.tasks.map taskFrame
    induction db.tasks with
    | nil => rfl
    | cons t rest ih => simp [updateRow_frame, ih]
  · exact all_status_map_updateRow db.tasks task_id "Completed" none

/-- C10: a create call with no supplied due date persists the task with its
due date equal to the current date, and for every supplied due-date option
the persisted due date is non-null (it is `some` of the supplied date or of
today). -/
theorem C10_due_date_defaults_to_today (db : DB)
    (created_by assigned_to task_desc priority project_ref : String) (today : Int) :
    (add_task false created_by assigned_to task_desc priority none project_ref
        today db).1 = true ∧
    ((add_task false created_by assigned_to task_desc priority none project_ref
        today db).2).tasks.map Task.due_date
      = db.tasks.map Task.due_date ++ [some today] ∧
    (∀ due : Option Int,
      ((add_task false created_by assigned_to task_desc priority due project_ref
          today db).2).tasks.map Task.due_date
        = db.tasks.map Task.due_date ++ [some (due.getD today)]) := by
  refine ⟨rfl, ?_, ?_⟩
  · simp [add_task, mkTask]
  · intro due
    simp [add_task, mkTask]

end RBS
